import Mathlib

/-!
Verification of the Liiga goalie statistics integration
(`src/__init__.py`, `src/sensor.py`) against its specification.

The Python code is shallowly embedded: JSON/Python values become the
inductive `PyVal` (numbers are modelled as exact rationals `Rat`; binary
floating-point rounding is not modelled, no claim here depends on it),
player records become association lists, fallible code returns `Except`,
and the timer-driven coordinator becomes an explicit state-transition
function on a `Coordinator` structure.
-/

/-- A Python float value: NaN, a signed infinity, or a finite value
modelled as an exact rational (binary-float rounding is not modelled; no
claim here depends on it, while NaN and the infinities are representable
because CPython's `float()` accepts them and `json.loads` accepts bare
`NaN`/`Infinity` tokens). -/
inductive PyFloat where
  | nan
  | inf (neg : Bool)
  | fin (q : Rat)
  deriving DecidableEq

/-- A Python/JSON value as it occurs in the Liiga API payloads. -/
inductive PyVal where
  | none
  | bool (b : Bool)
  | num (x : PyFloat)
  | str (s : String)
  | list (xs : List PyVal)
  | dict (kvs : List (String × PyVal))

/-- A raw player record: a Python `dict` keyed by field name
(`RawRecord` of the data model). -/
abbrev Record := List (String × PyVal)

/-- Python `d[k]` lookup / `k in d` support: first binding of `k`. -/
def Record.get? (r : Record) (k : String) : Option PyVal :=
  (r.find? (fun kv => kv.1 = k)).map (·.2)

/-- Python `d.get(k, dflt)`. -/
def Record.getd (r : Record) (k : String) (dflt : PyVal) : PyVal :=
  (Record.get? r k).getD dflt

/-- Python `k in d` for a dict. -/
def Record.hasKey (r : Record) (k : String) : Bool :=
  r.any (fun kv => kv.1 = k)

/-- Python truthiness of a value (`if value:`). -/
def pyTruthy : PyVal → Bool
  | .none => false
  | .bool b => b
  | .num x => x != PyFloat.fin 0
  | .str s => s ≠ ""
  | .list xs => !xs.isEmpty
  | .dict kvs => !kvs.isEmpty

/-- Python `str.strip()`: drop leading and trailing whitespace
(ASCII whitespace; Python also strips a few rarer control characters,
which never occur in the numeric fields modelled here). -/
def pyStrip (s : String) : String :=
  ⟨((s.toList.dropWhile Char.isWhitespace).reverse.dropWhile Char.isWhitespace).reverse⟩

/-- The expression `value.replace(',', '.').replace('%', '')` from `_has_valid_field` /
`_safe_get_value`: every comma becomes a period and every percent sign is
removed (single-character patterns, so `str.replace` is a map and a filter). -/
def pyNormalizeStr (s : String) : String :=
  ⟨(s.toList.map (fun c => if c = ',' then '.' else c)).filter (fun c => c ≠ '%')⟩

/-- Digits to the natural number they denote (most significant first). -/
def digitsToNat (cs : List Char) : Nat :=
  cs.foldl (fun acc c => acc * 10 + (c.toNat - '0'.toNat)) 0

/-- Leading sign of a Python float literal: `(negative, rest)`. -/
def readSign : List Char → Bool × List Char
  | [] => (false, [])
  | c :: cs =>
    if c = '+' then (false, cs)
    else if c = '-' then (true, cs)
    else (false, c :: cs)

/-- Consume a maximal run of digits in which a single underscore may
stand between two digits (CPython's digit-grouping rule for numeric
literals accepted by `float()`): returns the digits with underscores
removed, and the unconsumed rest. A leading, trailing, doubled, or
non-digit-adjacent underscore stops the run before itself. -/
def digitsU : List Char → List Char × List Char
  | [] => ([], [])
  | [c] => if c.isDigit then ([c], []) else ([], [c])
  | c :: c2 :: cs =>
    if c.isDigit then
      if c2 = '_' then
        match cs with
        | [] => ([c], ['_'])
        | c3 :: cs3 =>
          if c3.isDigit then
            let (ds, rest) := digitsU (c3 :: cs3)
            (c :: ds, rest)
          else ([c], '_' :: c3 :: cs3)
      else
        let (ds, rest) := digitsU (c2 :: cs)
        (c :: ds, rest)
    else ([], c :: c2 :: cs)

/-- Mantissa of a Python float literal: digit groups with at most one
point and at least one digit. Returns the scaled numerator and the number
of fractional digits. -/
def parseMantissa (cs : List Char) : Option (Nat × Nat) :=
  let (ip, rest) := digitsU cs
  match rest with
  | [] => if ip.isEmpty then Option.none else some (digitsToNat ip, 0)
  | c :: rest2 =>
    if c = '.' then
      let (fp, rest3) := digitsU rest2
      if rest3.isEmpty && !(ip.isEmpty && fp.isEmpty)
      then some (digitsToNat (ip ++ fp), fp.length)
      else Option.none
    else Option.none

/-- Optional exponent part (everything after `e`/`E`): sign and at least
one digit group. `Option.none` input means "no exponent", exponent 0. -/
def parseExpOpt : Option (List Char) → Option Int
  | Option.none => some 0
  | some cs =>
    let (neg, ds0) := readSign cs
    let (ds, rest) := digitsU ds0
    if ds.isEmpty || !rest.isEmpty then Option.none
    else some (if neg then -(digitsToNat ds : Int) else (digitsToNat ds : Int))

/-- Case-insensitive comparison of a character list against a pattern
given as (lowercase, uppercase) pairs. -/
def ciEq : List Char → List (Char × Char) → Bool
  | [], [] => true
  | c :: cs, p :: ps => (c = p.1 || c = p.2) && ciEq cs ps
  | _, _ => false

/-- Python `float()` special token `inf` / `infinity`, any case mix. -/
def isInfStr (cs : List Char) : Bool :=
  ciEq cs [('i', 'I'), ('n', 'N'), ('f', 'F')]
    || ciEq cs [('i', 'I'), ('n', 'N'), ('f', 'F'), ('i', 'I'), ('n', 'N'), ('i', 'I'),
        ('t', 'T'), ('y', 'Y')]

/-- Python `float()` special token `nan`, any case mix. -/
def isNanStr (cs : List Char) : Bool :=
  ciEq cs [('n', 'N'), ('a', 'A'), ('n', 'N')]

/-- Split a float literal at the first `e`/`E`, if any. -/
def breakAtExp (cs : List Char) : List Char × Option (List Char) :=
  let (mant, rest) := cs.span (fun c => !(c = 'e' || c = 'E'))
  match rest with
  | [] => (mant, Option.none)
  | _ :: t => (mant, some t)

/-- Python `float(s)` on a string: optional surrounding whitespace,
optional sign, then either a case-insensitive `inf`/`infinity`/`nan`
token or a decimal literal (digit groups with single underscores between
digits, at most one point, at least one digit, optional exponent).
The sign on `nan` is dropped, as CPython's float does. -/
def pyFloatOfString (s : String) : Option PyFloat :=
  let cs := (pyStrip s).toList
  let (neg, cs1) := readSign cs
  if isInfStr cs1 then some (.inf neg)
  else if isNanStr cs1 then some .nan
  else
    let (mant, expPart) := breakAtExp cs1
    match parseMantissa mant, parseExpOpt expPart with
    | some (m, k), some e =>
      let n : Int := (m : Int) * (10 : Int) ^ e.toNat
      some (.fin (mkRat (if neg then -n else n) (10 ^ (k + (-e).toNat))))
    | _, _ => Option.none

/-- Normalization applied by the source to a textual field value:
`float(value.replace(',', '.').replace('%', ''))`, `Option.none` when the
conversion raises `ValueError`. -/
def strNormalize (s : String) : Option PyFloat :=
  pyFloatOfString (pyNormalizeStr s)

/-- Source `_has_valid_field(player, field)`: the field is present, not `None`,
and convertible to a number. A `float()` call on a list or dict raises
`TypeError`, which the source catches, so those values are invalid. -/
def has_valid_field (player : Record) (field : String) : Bool :=
  match Record.get? player field with
  | Option.none => false
  | some v =>
    match v with
    | .none => false
    | .str s => (strNormalize s).isSome
    | .bool _ => true
    | .num _ => true
    | .list _ => false
    | .dict _ => false

/-- Source `_safe_get_value(player, field)`: numeric value with `0` fallbacks.
On a list or dict value the Python `float()` call would raise `TypeError`
(uncaught); that branch is unreachable in `_process_data` because every
caller first filters by `_has_valid_field`, and it is mapped to `0` here. -/
def safe_get_value (player : Record) (field : String) : PyFloat :=
  match Record.getd player field (.num (.fin 0)) with
  | .str s => (strNormalize s).getD (.fin 0)
  | .none => .fin 0
  | .bool b => .fin (if b then 1 else 0)
  | .num x => x
  | .list _ => .fin 0
  | .dict _ => .fin 0

/-- Modelled from the spec: the Field Normalizer as the spec words it
("strip a trailing percent marker, replace a comma decimal separator with
a period, then parse as a floating-point number; not-ok on parse
failure"), for refinement comparison with the source's `strNormalize`.
One trailing percent sign is stripped; commas become periods. -/
def specNormalize (s : String) : Option PyFloat :=
  let cs := s.toList
  let cs1 := if cs.getLast? = some '%' then cs.dropLast else cs
  pyFloatOfString ⟨cs1.map (fun c => if c = ',' then '.' else c)⟩

/-- Python `str()` of a field value as used in the f-string building the
display name. Names coming from the feed are strings (the `.str` case);
the renderings of the other cases approximate Python's `repr`-style output
and are never hit by the claims. -/
def pyStr : PyVal → String
  | .str s => s
  | .none => "None"
  | .bool b => if b then "True" else "False"
  | .num x =>
    match x with
    | .fin q => toString q
    | .nan => "nan"
    | .inf neg => if neg then "-inf" else "inf"
  | .list _ => "[...]"
  | .dict _ => "\x7b...\x7d"

/-- One leaderboard entry, the dict built per goalie in `_process_data`
(its keys are fixed, so it is a structure here). -/
structure Entry where
  rank : Nat
  name : String
  team : PyVal
  value : PyFloat
  games : PyVal
  position : PyVal
  number : PyVal
  player_id : PyVal
  image_url : PyVal
  wins : PyVal
  losses : PyVal
  ties : PyVal

/-- A `RefreshResult`: the dict from category identifier to leaderboard
built by one cycle (insertion-ordered, as a Python dict). -/
abbrev RefreshResult := List (String × List Entry)

/-- Python dict assignment `d[k] = v`: replace in place, or append. -/
def dictInsert (d : RefreshResult) (k : String) (v : List Entry) : RefreshResult :=
  if d.any (fun kv => kv.1 = k) then
    d.map (fun kv => if kv.1 = k then (k, v) else kv)
  else d ++ [(k, v)]

/-- The `category_mapping` table of `_process_data`: integration category
name to Liiga API field name. -/
def category_mapping : List (String × String) :=
  [("savepercentage", "savePercentage"),
   ("shutouts", "shutOut"),
   ("goalsagainstavg", "goalsAgainstAvg"),
   ("wins", "gkWins"),
   ("losses", "gkLosses"),
   ("ties", "gkTies"),
   ("saves", "blockedOrSavedShots"),
   ("xgea", "xgea"),
   ("games", "games")]

/-- Exceptions a processing step can raise. -/
inductive PyErr where
  | attributeError
  | typeError
  deriving DecidableEq

/-- The `p.get('goalkeeper', False)` truthiness test on a list element: keeps the
element when it is a dict whose flag is truthy, drops a dict without the
flag or with a falsy one, and raises `AttributeError` when the element is
not a dict (Python objects without `.get`). -/
def goalieFilter (items : List PyVal) : Except PyErr (List Record) :=
  items.foldr
    (fun item acc =>
      match item, acc with
      | _, .error e => .error e
      | .dict kvs, .ok rest =>
        .ok (if pyTruthy (Record.getd kvs "goalkeeper" (.bool false)) then kvs :: rest else rest)
      | _, .ok _ => .error .attributeError)
    (.ok [])

/-- Python iteration over a value (`for p in value`): lists yield their
elements, strings their characters, dicts their keys; scalars raise
`TypeError`. -/
def pyIter : PyVal → Except PyErr (List PyVal)
  | .list xs => .ok xs
  | .str s => .ok (s.toList.map (fun c => .str ⟨[c]⟩))
  | .dict kvs => .ok (kvs.map (fun kv => .str kv.1))
  | _ => .error .typeError

/-- The Schema Detector of `_process_data` (lines 179–187): resolve the
player list from a bare list, a `playerStats` key or a `players` key, and
keep the truthy-`goalkeeper` records; any other shape resolves to no
goalies. -/
def extractGoalies (data : PyVal) : Except PyErr (List Record) :=
  match data with
  | .list items => goalieFilter items
  | .dict kvs =>
    if Record.hasKey kvs "playerStats" then
      match pyIter (Record.getd kvs "playerStats" (.list [])) with
      | .error e => .error e
      | .ok items => goalieFilter items
    else if Record.hasKey kvs "players" then
      match pyIter (Record.getd kvs "players" (.list [])) with
      | .error e => .error e
      | .ok items => goalieFilter items
    else .ok []
  | _ => .ok []

/-- The per-category validity filter of `_process_data` (line 200). -/
def validGoalies (goalies : List Record) (field : String) : List Record :=
  goalies.filter (fun p => has_valid_field p field)

/-- Python `<` on floats: false whenever either side is NaN, with
`-inf` below every number and `+inf` above. This is the comparison
CPython's `sorted` applies to the keys. -/
def pyLt : PyFloat → PyFloat → Bool
  | .nan, _ => false
  | _, .nan => false
  | .inf na, .inf nb => na && !nb
  | .inf na, .fin _ => na
  | .fin _, .inf nb => !nb
  | .fin a, .fin b => decide (a < b)

/-- Python `not (b < a)`, the "a may precede b" test of a stable
ascending sort; on non-NaN floats this is `a ≤ b`. -/
def pyLe (a b : PyFloat) : Bool := !pyLt b a

/-- Stable insertion of `x` into `l`: walk past elements strictly below
`x` and place `x` before the first element not below it, so an element
inserted later (earlier in the original list) precedes equal ones. -/
def insLt (lt : α → α → Bool) (x : α) : List α → List α
  | [] => [x]
  | y :: ys => if lt y x then y :: insLt lt x ys else x :: y :: ys

/-- Stable ascending sort by a strict comparison, the specification of
CPython's Timsort: on consistent comparisons every stable sort computes
the same list; with NaN keys (every comparison false) Timsort's output is
implementation-defined, and on the concrete NaN inputs used below
hand-tracing Timsort's run detection gives the same list as this sort. -/
def isortLt (lt : α → α → Bool) : List α → List α
  | [] => []
  | x :: xs => insLt lt x (isortLt lt xs)

/-- CPython `sorted(l, key, reverse)`: stable ascending Timsort on `<`;
`reverse=True` is implemented by reversing the list before and after
(`listobject.c`), which preserves stability. -/
def pySorted (lt : α → α → Bool) (reverse : Bool) (l : List α) : List α :=
  if reverse then (isortLt lt l.reverse).reverse else isortLt lt l

/-- The key comparison `lambda x: self._safe_get_value(x, api_field)`
under Python `<`. -/
def keyLt (field : String) (a b : Record) : Bool :=
  pyLt (safe_get_value a field) (safe_get_value b field)

/-- Source `sorted(valid_goalies, key=..., reverse=reverse_sort)` from
`_process_data` (lines 206–210). -/
def sortedGoalies (goalies : List Record) (field : String) (reverse : Bool) : List Record :=
  pySorted (keyLt field) reverse (validGoalies goalies field)

/-- The entry dict built for the goalie at (1-based) position `i`
(`_process_data` lines 214–231). -/
def mkEntry (field : String) (i : Nat) (g : Record) : Entry :=
  { rank := i
    name := pyStrip (pyStr (Record.getd g "firstName" (.str "")) ++ " "
      ++ pyStr (Record.getd g "lastName" (.str "")))
    team := Record.getd g "teamName" (Record.getd g "teamShortName" (.str "Unknown"))
    value := safe_get_value g field
    games := Record.getd g "games" (.num (.fin 0))
    position := Record.getd g "role" (.str "")
    number := Record.getd g "jersey" (.str "")
    player_id := Record.getd g "playerId" (.str "")
    image_url := Record.getd g "pictureUrl" (.str "")
    wins := Record.getd g "gkWins" (.num (.fin 0))
    losses := Record.getd g "gkLosses" (.num (.fin 0))
    ties := Record.getd g "gkTies" (.num (.fin 0)) }

/-- One category's leaderboard: filter, stable sort in the category's
direction (ascending only for `goalsagainstavg`), truncate to `top_n`,
rank densely from 1. -/
def buildCategory (goalies : List Record) (category field : String) (top_n : Nat) :
    List Entry :=
  let reverse_sort := category ≠ "goalsagainstavg"
  (((sortedGoalies goalies field reverse_sort).take top_n).enumFrom 1).map
    (fun p => mkEntry field p.1 p.2)

/-- Result of `_process_data` together with whether the no-goalie-data
warning was logged. -/
structure ProcOut where
  result : RefreshResult
  warned : Bool

/-- Source `_process_data(data)`: Schema Detector, then a leaderboard per
configured category that appears in `category_mapping`. An exception from
the detector propagates. -/
def process_data (data : PyVal) (categories : List String) (top_n : Nat) :
    Except PyErr ProcOut :=
  match extractGoalies data with
  | .error e => .error e
  | .ok goalies =>
    if goalies.isEmpty then .ok ⟨[], true⟩
    else .ok ⟨categories.foldl
      (fun res category =>
        match (category_mapping.find? (fun kv => kv.1 = category)).map (·.2) with
        | some api_field => dictInsert res category (buildCategory goalies category api_field top_n)
        | Option.none => res)
      [], false⟩

/-- Outcome of the single HTTP GET of one cycle, as seen by
`_fetch_data`: a transport-level `aiohttp.ClientError`, a response with a
status code and (for status 200) a parsed JSON body, or a 200 response
whose body fails JSON decoding (`json.JSONDecodeError`, which is not an
`aiohttp.ClientError` and therefore escapes `_fetch_data`). -/
inductive FetchOutcome where
  | clientError
  | response (status : Nat) (body : PyVal)
  | jsonDecodeError

/-- Exceptions escaping `_fetch_data` (anything that is not an
`aiohttp.ClientError`). -/
inductive FetchErr where
  | jsonDecode
  | processing (e : PyErr)

/-- Source `_fetch_data`: a non-200 status or a `ClientError` is caught and
yields the empty dict; a 200 body is handed to `_process_data`, whose
exceptions (and JSON decode errors) propagate. -/
def fetch_data (out : FetchOutcome) (categories : List String) (top_n : Nat) :
    Except FetchErr ProcOut :=
  match out with
  | .clientError => .ok ⟨[], false⟩
  | .jsonDecodeError => .error .jsonDecode
  | .response status body =>
    if status ≠ 200 then .ok ⟨[], false⟩
    else
      match process_data body categories top_n with
      | .error e => .error (.processing e)
      | .ok d => .ok d

/-- The coordinator's state: its configuration, the stored data (`None`
before the first completed cycle), the host framework's success flag for
the most recent cycle, and `last_update_success_time`. Time is abstract
(`Nat` ticks stand for `datetime.now()` values). -/
structure Coordinator where
  categories : List String
  top_n : Nat
  data : Option RefreshResult
  last_update_success : Bool
  last_update_success_time : Option Nat

/-- Source `_async_update_data` at time `now`: on any exception raise
`UpdateFailed`; otherwise return the fetched dict, updating
`last_update_success_time` only when that dict is truthy (non-empty). -/
def async_update_data (out : FetchOutcome) (c : Coordinator) (now : Nat) :
    Except FetchErr (RefreshResult × Option Nat) :=
  match fetch_data out c.categories c.top_n with
  | .error e => .error e
  | .ok d =>
    .ok (d.result, if d.result.isEmpty then c.last_update_success_time else some now)

/-- One refresh cycle. The dispatch around `_async_update_data` is the
Home Assistant `DataUpdateCoordinator` contract (the host framework, an
external collaborator): a normal return becomes the new `coordinator.data`
with the success flag set; a raised `UpdateFailed` leaves `data` untouched
and clears the flag. -/
def refreshCycle (c : Coordinator) (out : FetchOutcome) (now : Nat) : Coordinator :=
  match async_update_data out c now with
  | .ok (d, t) =>
    { c with data := some d, last_update_success := true, last_update_success_time := t }
  | .error _ => { c with last_update_success := false }

/-- The leaderboard stored for `category`:
`self.coordinator.data.get(self.category, [])`. -/
def lookupLeaders (d : RefreshResult) (category : String) : List Entry :=
  ((d.find? (fun kv => kv.1 = category)).map (·.2)).getD []

/-- Python `k in d` for a `RefreshResult` dict. -/
def resultHasKey (d : RefreshResult) (category : String) : Bool :=
  d.any (fun kv => kv.1 = category)

/-- The sensor's `state` property (`sensor.py` lines 130–141): `Unknown`
when the coordinator holds no truthy data or the category is absent,
`No data` on an empty leaderboard, else the leader's name (the entry dict
always carries a `name` key, so the `.get` default is never taken). -/
def sensorState (data : Option RefreshResult) (category : String) : String :=
  match data with
  | Option.none => "Unknown"
  | some d =>
    if d.isEmpty then "Unknown"
    else if !(resultHasKey d category) then "Unknown"
    else
      match lookupLeaders d category with
      | [] => "No data"
      | e :: _ => e.name

/-- Per-category display configuration (`sensor.py` `CATEGORY_CONFIG`),
without the icon, which no claim mentions. -/
structure CatConfig where
  name : String
  value_suffix : String
  precision : Nat

/-- The `CATEGORY_CONFIG` table of `sensor.py`. -/
def CATEGORY_CONFIG : List (String × CatConfig) :=
  [("savepercentage", ⟨"Save Percentage", "%", 1⟩),
   ("shutouts", ⟨"Shutouts", "", 0⟩),
   ("goalsagainstavg", ⟨"Goals Against Avg", "", 2⟩),
   ("wins", ⟨"Wins", "", 0⟩),
   ("losses", ⟨"Losses", "", 0⟩),
   ("ties", ⟨"Ties", "", 0⟩),
   ("saves", ⟨"Saves", "", 0⟩),
   ("xgea", ⟨"Expected Goals Effect", "", 2⟩),
   ("games", ⟨"Games", "", 0⟩)]

/-- Lookup `CATEGORY_CONFIG.get(category, defaults)` as resolved in the sensor
constructor. -/
def categoryConfig (category : String) : CatConfig :=
  ((CATEGORY_CONFIG.find? (fun kv => kv.1 = category)).map (·.2)).getD
    ⟨category.capitalize, "", 0⟩

/-- Python `int(q)` on a float: truncation toward zero. -/
def ratTrunc (q : Rat) : Int :=
  if 0 ≤ q then ⌊q⌋ else ⌈q⌉

/-- Nearest integer, ties to even: the rounding of Python's fixed-point
float formatting, applied here to the exact rational (binary-float
representation artifacts are not modelled). -/
def roundHalfEven (x : Rat) : Int :=
  let f := ⌊x⌋
  let r := x - f
  if r < mkRat 1 2 then f
  else if mkRat 1 2 < r then f + 1
  else if f % 2 = 0 then f else f + 1

/-- Left-pad a numeral with zeros to width `w`. -/
def padZeros (s : String) (w : Nat) : String :=
  ⟨List.replicate (w - s.length) '0'⟩ ++ s

/-- Python `f"{v:.pf}"` for `p > 0`: fixed-point with `p` decimals. -/
def formatFixed (q : Rat) (p : Nat) : String :=
  let scaled := roundHalfEven (q * (10 : Rat) ^ p)
  let sign := if scaled < 0 then "-" else ""
  let n := scaled.natAbs
  sign ++ toString (n / 10 ^ p) ++ "." ++ padZeros (toString (n % 10 ^ p)) p

/-- The per-goalie dict built in `extra_state_attributes`: the value
formatted to the category's precision plus suffix, and the composed
`W-L-T` record string. On a non-finite value the precision-0 branch's
Python `int()` call would raise (ValueError/OverflowError); it is mapped
to the `nan`/`inf` rendering here, a branch no judged claim evaluates,
while the fixed-precision f-string genuinely renders `nan`/`inf`. -/
def formatEntry (cfg : CatConfig) (e : Entry) : PyVal :=
  let fv :=
    match e.value with
    | .fin q =>
      if cfg.precision = 0 then toString (ratTrunc q) ++ cfg.value_suffix
      else formatFixed q cfg.precision ++ cfg.value_suffix
    | .nan => "nan" ++ cfg.value_suffix
    | .inf neg => (if neg then "-inf" else "inf") ++ cfg.value_suffix
  .dict
    [("rank", .num (.fin e.rank)),
     ("name", .str e.name),
     ("team", e.team),
     ("value", .str fv),
     ("games", e.games),
     ("position", e.position),
     ("number", e.number),
     ("image_url", e.image_url),
     ("wins", e.wins),
     ("losses", e.losses),
     ("ties", e.ties),
     ("record", .str (pyStr e.wins ++ "-" ++ pyStr e.losses ++ "-" ++ pyStr e.ties))]

/-- Python `datetime.isoformat()` of an abstract time tick. -/
def isoFormat (t : Nat) : String := toString t

/-- The sensor's `extra_state_attributes` (`sensor.py` lines 143–184):
the empty dict when the coordinator holds no truthy data or the category
is absent; otherwise the formatted leaders, the last-success timestamp,
the category names and the leader's image reference. -/
def extra_state_attributes (data : Option RefreshResult) (t : Option Nat)
    (category : String) : List (String × PyVal) :=
  match data with
  | Option.none => []
  | some d =>
    if d.isEmpty then []
    else if !(resultHasKey d category) then []
    else
      let leaders := lookupLeaders d category
      let cfg := categoryConfig category
      [("leaders", .list (leaders.map (formatEntry cfg))),
       ("last_updated", match t with | some n => .str (isoFormat n) | Option.none => .none),
       ("category", .str category),
       ("category_name", .str (categoryConfig category).name),
       ("leader_image_url", match leaders with | [] => .str "" | e :: _ => e.image_url)]

/-- A numeric feed string: digits, an optional comma decimal part, an
optional trailing percent sign (the encodings the spec's normalization
property quantifies over). -/
def numeralStr (a b : List Char) (pct : Bool) : String :=
  ⟨a ++ (if b.isEmpty then [] else ',' :: b) ++ (if pct then ['%'] else [])⟩

/-! ## Theorems -/

theorem sanity_normalize_examples :
    strNormalize "92,5%" = some (.fin (mkRat 925 10))
    ∧ strNormalize "9%2" = some (.fin 92)
    ∧ strNormalize "abc" = Option.none
    ∧ strNormalize "1e2" = some (.fin 100)
    ∧ strNormalize "-1,5" = some (.fin (mkRat (-3) 2))
    ∧ strNormalize ".5" = some (.fin (mkRat 1 2))
    ∧ strNormalize "." = Option.none
    ∧ strNormalize "nan" = some PyFloat.nan
    ∧ strNormalize "-Infinity" = some (PyFloat.inf true)
    ∧ strNormalize "iNf" = some (PyFloat.inf false)
    ∧ strNormalize "1_0.2_5" = some (.fin (mkRat 1025 100))
    ∧ strNormalize "1_" = Option.none
    ∧ strNormalize "1__0" = Option.none
    ∧ has_valid_field [("shutOut", .num (.fin 0))] "shutOut" = true
    ∧ has_valid_field [("shutOut", .str "nan")] "shutOut" = true
    ∧ has_valid_field [("shutOut", .none)] "shutOut" = false
    ∧ has_valid_field [] "shutOut" = false := by
  refine ⟨?_, ?_, ?_, ?_, ?_, ?_, ?_, ?_, ?_, ?_, ?_, ?_, ?_, ?_, ?_, ?_, ?_⟩ <;> decide

theorem insLt_perm (lt : α → α → Bool) (x : α) (l : List α) :
    (insLt lt x l).Perm (x :: l) := by
  induction l with
  | nil => exact List.Perm.refl _
  | cons y ys ih =>
    cases h : lt y x with
    | true => simpa [insLt, h] using (ih.cons y).trans (List.Perm.swap x y ys)
    | false => simp [insLt, h]

theorem isortLt_perm (lt : α → α → Bool) (l : List α) : (isortLt lt l).Perm l := by
  induction l with
  | nil => exact List.Perm.refl _
  | cons x xs ih => exact (insLt_perm lt x (isortLt lt xs)).trans (ih.cons x)

theorem pySorted_perm (lt : α → α → Bool) (reverse : Bool) (l : List α) :
    (pySorted lt reverse l).Perm l := by
  cases reverse with
  | false => exact isortLt_perm lt l
  | true =>
    exact ((List.reverse_perm _).trans (isortLt_perm lt l.reverse)).trans
      (List.reverse_perm l)

theorem pySorted_length (lt : α → α → Bool) (reverse : Bool) (l : List α) :
    (pySorted lt reverse l).length = l.length :=
  (pySorted_perm lt reverse l).length_eq

theorem mem_pySorted (lt : α → α → Bool) (reverse : Bool) (l : List α) (x : α) :
    x ∈ pySorted lt reverse l ↔ x ∈ l :=
  (pySorted_perm lt reverse l).mem_iff

theorem mem_sortedGoalies (goalies : List Record) (field : String) (reverse : Bool)
    (x : Record) : x ∈ sortedGoalies goalies field reverse ↔ x ∈ validGoalies goalies field :=
  mem_pySorted (keyLt field) reverse (validGoalies goalies field) x

theorem sublist_insLt (lt : α → α → Bool) (x : α) (l : List α) : l.Sublist (insLt lt x l) := by
  induction l with
  | nil => exact List.nil_sublist _
  | cons y ys ih =>
    cases h : lt y x with
    | true => simpa [insLt, h] using ih.cons₂ y
    | false => simpa [insLt, h] using (List.Sublist.refl (y :: ys)).cons x

theorem insLt_pair (lt : α → α → Bool) (x y : α) (l : List α) (hy : y ∈ l)
    (hxy : lt y x = false) : [x, y].Sublist (insLt lt x l) := by
  induction l with
  | nil => exact absurd hy (List.not_mem_nil y)
  | cons z zs ih =>
    cases hz : lt z x with
    | true =>
      rcases List.mem_cons.mp hy with rfl | hy2
      · rw [hz] at hxy
        exact absurd hxy (by simp)
      · simpa [insLt, hz] using (ih hy2).cons z
    | false =>
      simpa [insLt, hz] using (List.singleton_sublist.mpr hy).cons₂ x

theorem isortLt_pair_stable (lt : α → α → Bool) :
    ∀ (l : List α) (x y : α), [x, y].Sublist l → lt y x = false →
      [x, y].Sublist (isortLt lt l) := by
  intro l
  induction l with
  | nil =>
    intro x y h _
    exact absurd (List.sublist_nil.mp h) (by simp)
  | cons hd t ih =>
    intro x y hsub hxy
    cases hsub with
    | cons _ h2 => exact (ih x y h2 hxy).trans (sublist_insLt lt hd (isortLt lt t))
    | cons₂ _ h2 =>
      exact insLt_pair lt hd y (isortLt lt t)
        (((isortLt_perm lt t).mem_iff).mpr (List.singleton_sublist.mp h2)) hxy

theorem pySorted_pair_stable (lt : α → α → Bool) (reverse : Bool) (l : List α) (x y : α)
    (h : [x, y].Sublist l) (h1 : lt y x = false) (h2 : lt x y = false) :
    [x, y].Sublist (pySorted lt reverse l) := by
  cases reverse with
  | false => exact isortLt_pair_stable lt l x y h h1
  | true =>
    have hrev : [y, x].Sublist l.reverse := by
      simpa using h.reverse
    have hst := isortLt_pair_stable lt l.reverse y x hrev h2
    simpa [pySorted] using hst.reverse

theorem insLt_pairwise (lt : α → α → Bool) (x : α) (l : List α)
    (hpw : l.Pairwise (fun a b => lt b a = false))
    (hasym : ∀ y ∈ l, lt y x = true → lt x y = false)
    (hco : ∀ y ∈ l, ∀ z ∈ l, lt y x = false → lt z y = false → lt z x = false) :
    (insLt lt x l).Pairwise (fun a b => lt b a = false) := by
  induction l with
  | nil => simp [insLt]
  | cons y ys ih =>
    rcases List.pairwise_cons.mp hpw with ⟨hy_rel, hpw2⟩
    cases hz : lt y x with
    | true =>
      have hins := ih hpw2 (fun w hw => hasym w (List.mem_cons_of_mem y hw))
        (fun w hw z2 hz2 => hco w (List.mem_cons_of_mem y hw) z2 (List.mem_cons_of_mem y hz2))
      have hrel : ∀ w ∈ insLt lt x ys, lt w y = false := by
        intro w hw
        rcases List.mem_cons.mp (((insLt_perm lt x ys).mem_iff).mp hw) with rfl | hw2
        · exact hasym y (List.mem_cons_self y ys) hz
        · exact hy_rel w hw2
      simpa [insLt, hz] using List.pairwise_cons.mpr ⟨hrel, hins⟩
    | false =>
      have hrel : ∀ w ∈ y :: ys, lt w x = false := by
        intro w hw
        rcases List.mem_cons.mp hw with rfl | hw2
        · exact hz
        · exact hco y (List.mem_cons_self y ys) w (List.mem_cons_of_mem y hw2) hz
            (hy_rel w hw2)
      simpa [insLt, hz] using List.pairwise_cons.mpr ⟨hrel, hpw⟩

theorem isortLt_pairwise (lt : α → α → Bool) (l : List α)
    (hasym : ∀ x ∈ l, ∀ y ∈ l, lt x y = true → lt y x = false)
    (hco : ∀ x ∈ l, ∀ y ∈ l, ∀ z ∈ l, lt y x = false → lt z y = false → lt z x = false) :
    (isortLt lt l).Pairwise (fun a b => lt b a = false) := by
  induction l with
  | nil => simp [isortLt]
  | cons x xs ih =>
    have hmem : ∀ w, w ∈ isortLt lt xs → w ∈ xs :=
      fun w hw => ((isortLt_perm lt xs).mem_iff).mp hw
    refine insLt_pairwise lt x (isortLt lt xs)
      (ih (fun a ha b hb => hasym a (List.mem_cons_of_mem x ha) b (List.mem_cons_of_mem x hb))
        (fun a ha b hb c hc => hco a (List.mem_cons_of_mem x ha) b (List.mem_cons_of_mem x hb)
          c (List.mem_cons_of_mem x hc)))
      (fun y hy => hasym y (List.mem_cons_of_mem x (hmem y hy)) x (List.mem_cons_self x xs))
      (fun y hy z hz => hco x (List.mem_cons_self x xs) y (List.mem_cons_of_mem x (hmem y hy))
        z (List.mem_cons_of_mem x (hmem z hz)))

theorem pySorted_pairwise (lt : α → α → Bool) (reverse : Bool) (l : List α)
    (hasym : ∀ x ∈ l, ∀ y ∈ l, lt x y = true → lt y x = false)
    (hco : ∀ x ∈ l, ∀ y ∈ l, ∀ z ∈ l, lt y x = false → lt z y = false → lt z x = false) :
    (pySorted lt reverse l).Pairwise
      (fun a b => (if reverse then lt a b else lt b a) = false) := by
  cases reverse with
  | false =>
    simpa [pySorted] using isortLt_pairwise lt l hasym hco
  | true =>
    have h := isortLt_pairwise lt l.reverse
      (fun x hx y hy => hasym x (List.mem_reverse.mp hx) y (List.mem_reverse.mp hy))
      (fun x hx y hy z hz => hco x (List.mem_reverse.mp hx) y (List.mem_reverse.mp hy)
        z (List.mem_reverse.mp hz))
    simpa [pySorted, List.pairwise_reverse] using h

theorem pyLt_asymm (x y : PyFloat) (h : pyLt x y = true) : pyLt y x = false := by
  rcases x with _ | nx | qx <;> rcases y with _ | ny | qy <;> simp_all [pyLt]
  · exact le_of_lt h

theorem pyLt_co_trans (x y z : PyFloat) (hx : x ≠ .nan) (hy : y ≠ .nan) (hz : z ≠ .nan)
    (h1 : pyLt y x = false) (h2 : pyLt z y = false) : pyLt z x = false := by
  rcases x with _ | nx | qx <;> rcases y with _ | ny | qy <;> rcases z with _ | nz | qz <;>
    simp_all [pyLt]
  exact le_trans h1 h2

/-- C9: for every category, the sensor's primary display value is the
name of the rank-1 entry of that category's leaderboard; it is "Unknown"
when the category is absent from the current RefreshResult (or no
RefreshResult exists, or the stored one is empty) and "No data" when the
category is present but its leaderboard is empty. -/
theorem c9_sensor_state (category : String) :
    sensorState Option.none category = "Unknown"
    ∧ (∀ d : RefreshResult, d = [] ∨ resultHasKey d category = false →
        sensorState (some d) category = "Unknown")
    ∧ (∀ d : RefreshResult, resultHasKey d category = true →
        lookupLeaders d category = [] →
        sensorState (some d) category = "No data")
    ∧ (∀ (d : RefreshResult) (e : Entry) (es : List Entry),
        resultHasKey d category = true →
        lookupLeaders d category = e :: es →
        sensorState (some d) category = e.name) := by
  refine ⟨rfl, ?_, ?_, ?_⟩
  · rintro d (rfl | hk)
    · rfl
    · cases d with
      | nil => rfl
      | cons kv tl => simp [sensorState, hk]
  · intro d hk hl
    cases d with
    | nil => simp [resultHasKey] at hk
    | cons kv tl => simp [sensorState, hk, hl]
  · intro d e es hk hl
    cases d with
    | nil => simp [resultHasKey] at hk
    | cons kv tl => simp [sensorState, hk, hl]

theorem c9_sensor_state_witness :
    sensorState (some [("shutouts", [])]) "shutouts" = "No data" :=
  (c9_sensor_state "shutouts").2.2.1 [("shutouts", [])] (by decide) rfl

/-- C10: for every category, when the coordinator's data is empty or
absent, or the category is missing from it, the sensor's attribute
payload is the empty mapping regardless of any stored timestamp. -/
theorem c10_empty_attributes (t : Option Nat) (category : String) :
    extra_state_attributes Option.none t category = []
    ∧ ∀ d : RefreshResult, d = [] ∨ resultHasKey d category = false →
        extra_state_attributes (some d) t category = [] := by
  refine ⟨rfl, ?_⟩
  rintro d (rfl | hk)
  · rfl
  · cases d with
    | nil => rfl
    | cons kv tl => simp [extra_state_attributes, hk]

theorem c10_empty_attributes_witness :
    extra_state_attributes (some [("losses", [])]) (some 3) "wins" = [] :=
  (c10_empty_attributes (some 3) "wins").2 [("losses", [])] (Or.inr (by decide))

theorem extractGoalies_dicts (recs : List Record) :
    extractGoalies (.list (recs.map .dict))
      = .ok (recs.filter (fun r => pyTruthy (Record.getd r "goalkeeper" (.bool false)))) := by
  induction recs with
  | nil => rfl
  | cons r tl ih =>
    simp only [List.map_cons, extractGoalies, goalieFilter, List.foldr_cons] at ih ⊢
    rw [ih]
    by_cases h : pyTruthy (Record.getd r "goalkeeper" (.bool false)) <;> simp [h]

/-- C6: the Schema Detector extracts the same goaltender subset from a
bare list, a `playerStats` wrapper and a `players` wrapper over the same
underlying records; on a list of well-formed (dict) records it keeps
exactly those whose `goalkeeper` flag is truthy. -/
theorem c6_schema_shapes (items : List PyVal) :
    extractGoalies (.dict [("playerStats", .list items)]) = extractGoalies (.list items)
    ∧ extractGoalies (.dict [("players", .list items)]) = extractGoalies (.list items)
    ∧ ∀ recs : List Record,
        extractGoalies (.list (recs.map .dict))
          = .ok (recs.filter (fun r => pyTruthy (Record.getd r "goalkeeper" (.bool false)))) :=
  ⟨rfl, rfl, fun recs => extractGoalies_dicts recs⟩

/-- C7 fails as stated: a resolved player list containing a malformed
(non-dict) entry makes `_process_data` raise `AttributeError` (the entry
has no `.get`), so processing does not complete without raising. -/
theorem c7_counterexample :
    process_data (.list [.str "x"]) ["savepercentage"] 5 = .error .attributeError := rfl

/-- C7 amended: processing a list of well-formed (dict) records never
raises and drops non-goaltender records silently, and an unrecognized
payload shape (scalar, or a mapping without a known player-list key)
yields an empty result with the warning diagnostic; but a resolved player
list containing a malformed (non-record) entry raises an AttributeError
that fails the whole cycle instead of being dropped. -/
theorem c7_amended (categories : List String) (top_n : Nat) :
    (∀ recs : List Record, ∃ out : ProcOut,
        process_data (.list (recs.map .dict)) categories top_n = .ok out)
    ∧ (∀ kvs : Record, Record.hasKey kvs "playerStats" = false →
        Record.hasKey kvs "players" = false →
        process_data (.dict kvs) categories top_n = .ok ⟨[], true⟩)
    ∧ (∀ x : PyFloat, process_data (.num x) categories top_n = .ok ⟨[], true⟩)
    ∧ process_data .none categories top_n = .ok ⟨[], true⟩
    ∧ process_data (.list [.str "x"]) categories top_n = .error .attributeError := by
  refine ⟨?_, ?_, fun x => rfl, rfl, rfl⟩
  · intro recs
    unfold process_data
    rw [extractGoalies_dicts recs]
    by_cases he :
        (recs.filter (fun r => pyTruthy (Record.getd r "goalkeeper" (.bool false)))).isEmpty
    · simp only [he, if_true]
      exact ⟨⟨[], true⟩, rfl⟩
    · simp only [Bool.not_eq_true] at he
      simp only [he, Bool.false_eq_true, if_false]
      exact ⟨_, rfl⟩
  · intro kvs h1 h2
    simp [process_data, extractGoalies, h1, h2]

theorem c7_amended_witness :
    process_data (.dict [("data", .num (.fin 1))]) ["savepercentage"] 5 = .ok ⟨[], true⟩ :=
  (c7_amended ["savepercentage"] 5).2.1 [("data", .num (.fin 1))] (by decide) (by decide)

/-- C1 fails as stated: after a transport error, the cycle returns the
empty dict, which the host coordinator stores as the new data, discarding
the previously successful RefreshResult; the sensor then shows "Unknown"
instead of the last good leader (the last-success timestamp alone is
preserved). -/
theorem c1_counterexample :
    (refreshCycle
        ⟨["savepercentage"], 5,
         some [("savepercentage",
           [⟨1, "Matti Virta", .str "Kärpät", .fin (mkRat 923 10), .num (.fin 0), .str "",
             .str "", .str "", .str "", .num (.fin 0), .num (.fin 0), .num (.fin 0)⟩])],
         true, some 3⟩
        .clientError 5).data
      ≠ some [("savepercentage",
          [⟨1, "Matti Virta", .str "Kärpät", .fin (mkRat 923 10), .num (.fin 0), .str "",
            .str "", .str "", .str "", .num (.fin 0), .num (.fin 0), .num (.fin 0)⟩])]
    ∧ (refreshCycle
        ⟨["savepercentage"], 5,
         some [("savepercentage",
           [⟨1, "Matti Virta", .str "Kärpät", .fin (mkRat 923 10), .num (.fin 0), .str "",
             .str "", .str "", .str "", .num (.fin 0), .num (.fin 0), .num (.fin 0)⟩])],
         true, some 3⟩
        .clientError 5).data = some []
    ∧ sensorState
        (refreshCycle
          ⟨["savepercentage"], 5,
           some [("savepercentage",
             [⟨1, "Matti Virta", .str "Kärpät", .fin (mkRat 923 10), .num (.fin 0), .str "",
               .str "", .str "", .str "", .num (.fin 0), .num (.fin 0), .num (.fin 0)⟩])],
           true, some 3⟩
          .clientError 5).data "savepercentage" = "Unknown"
    ∧ sensorState
        (some [("savepercentage",
          [⟨1, "Matti Virta", .str "Kärpät", .fin (mkRat 923 10), .num (.fin 0), .str "",
            .str "", .str "", .str "", .num (.fin 0), .num (.fin 0), .num (.fin 0)⟩])]) "savepercentage"
        = "Matti Virta" := by
  refine ⟨?_, rfl, rfl, rfl⟩
  intro h
  simp only [refreshCycle, async_update_data, fetch_data] at h
  exact absurd (Option.some.inj h) (by simp)

/-- C1 amended: for an already-initialized coordinator, a failed fetch
cycle (transport error or non-200 response) leaves the last-success
timestamp unchanged but replaces the stored RefreshResult with an empty
one, and the framework reports the cycle as successful; getState
afterwards returns the "Unknown" sentinel for every category, not the
last good leaderboard. -/
theorem c1_amended (c : Coordinator) (out : FetchOutcome) (now : Nat)
    (hout : out = .clientError ∨ ∃ s body, out = .response s body ∧ s ≠ 200) :
    (refreshCycle c out now).data = some []
    ∧ (refreshCycle c out now).last_update_success_time = c.last_update_success_time
    ∧ (refreshCycle c out now).last_update_success = true
    ∧ ∀ category, sensorState (refreshCycle c out now).data category = "Unknown" := by
  have hfetch : fetch_data out c.categories c.top_n = .ok ⟨[], false⟩ := by
    rcases hout with rfl | ⟨s, body, rfl, hs⟩
    · rfl
    · simp [fetch_data, hs]
  have hau : async_update_data out c now = .ok ([], c.last_update_success_time) := by
    simp [async_update_data, hfetch]
  exact ⟨by simp [refreshCycle, hau], by simp [refreshCycle, hau],
    by simp [refreshCycle, hau], fun category => by simp [refreshCycle, hau, sensorState]⟩

theorem c1_amended_witness :
    (refreshCycle ⟨["shutouts"], 5, some [("shutouts", [])], true, some 2⟩
        (.response 500 (.dict [])) 9).data = some []
    ∧ (refreshCycle ⟨["shutouts"], 5, some [("shutouts", [])], true, some 2⟩
        (.response 500 (.dict [])) 9).last_update_success_time
      = (⟨["shutouts"], 5, some [("shutouts", [])], true, some 2⟩ :
          Coordinator).last_update_success_time
    ∧ (refreshCycle ⟨["shutouts"], 5, some [("shutouts", [])], true, some 2⟩
        (.response 500 (.dict [])) 9).last_update_success = true
    ∧ ∀ category, sensorState
        (refreshCycle ⟨["shutouts"], 5, some [("shutouts", [])], true, some 2⟩
          (.response 500 (.dict [])) 9).data category = "Unknown" :=
  c1_amended ⟨["shutouts"], 5, some [("shutouts", [])], true, some 2⟩
    (.response 500 (.dict [])) 9 (Or.inr ⟨500, .dict [], rfl, by decide⟩)

/-- C8 fails as stated: a cycle that succeeds (HTTP 200 with a parseable
body) but produces an empty RefreshResult is reported successful yet does
not record a completion timestamp (`if data:` is false for the empty
dict). -/
theorem c8_counterexample :
    (refreshCycle ⟨["savepercentage"], 5, Option.none, false, Option.none⟩
        (.response 200 (.dict [])) 7).last_update_success = true
    ∧ (refreshCycle ⟨["savepercentage"], 5, Option.none, false, Option.none⟩
        (.response 200 (.dict [])) 7).data = some []
    ∧ (refreshCycle ⟨["savepercentage"], 5, Option.none, false, Option.none⟩
        (.response 200 (.dict [])) 7).last_update_success_time ≠ some 7 := by
  exact ⟨rfl, rfl, by decide⟩

/-- C8 amended: for every fetch cycle that succeeds (HTTP 200 with a
parseable body, processed without exception), the produced RefreshResult
becomes the exposed state and the cycle is marked successful; the
completion timestamp is recorded as the last-success timestamp only when
that RefreshResult is non-empty, an empty one leaving the previous
timestamp in place. -/
theorem c8_timestamp (c : Coordinator) (body : PyVal) (now : Nat)
    (d : RefreshResult) (w : Bool)
    (hproc : process_data body c.categories c.top_n = .ok ⟨d, w⟩) :
    (refreshCycle c (.response 200 body) now).data = some d
    ∧ (refreshCycle c (.response 200 body) now).last_update_success = true
    ∧ (refreshCycle c (.response 200 body) now).last_update_success_time
      = (if d.isEmpty then c.last_update_success_time else some now) := by
  simp only [refreshCycle, async_update_data, fetch_data, ne_eq, reduceIte, hproc]
  exact ⟨rfl, rfl, rfl⟩

theorem c8_timestamp_witness :
    (refreshCycle ⟨["savepercentage"], 5, Option.none, false, some 1⟩
        (.response 200 (.dict [])) 7).data = some []
    ∧ (refreshCycle ⟨["savepercentage"], 5, Option.none, false, some 1⟩
        (.response 200 (.dict [])) 7).last_update_success = true
    ∧ (refreshCycle ⟨["savepercentage"], 5, Option.none, false, some 1⟩
        (.response 200 (.dict [])) 7).last_update_success_time
      = (if ([] : RefreshResult).isEmpty
          then (⟨["savepercentage"], 5, Option.none, false, some 1⟩ :
            Coordinator).last_update_success_time
          else some 7) :=
  c8_timestamp ⟨["savepercentage"], 5, Option.none, false, some 1⟩ (.dict []) 7 [] true rfl

/-- C5: for every configured category with `v` valid records and limit
`top_n`, the produced leaderboard has exactly `min v top_n` entries and
their ranks are the dense contiguous sequence `1, 2, ...`; when `top_n`
exceeds `v` all valid records are ranked, with no padding. -/
theorem c5_truncation_ranks (goalies : List Record) (category field : String) (top_n : Nat) :
    (buildCategory goalies category field top_n).length
      = min (validGoalies goalies field).length top_n
    ∧ (buildCategory goalies category field top_n).map (·.rank)
      = List.range' 1 ((buildCategory goalies category field top_n).length) := by
  constructor
  · simp only [buildCategory, List.length_map, List.enumFrom_length, List.length_take,
      sortedGoalies, pySorted_length]
    exact Nat.min_comm _ _
  · simp only [buildCategory, List.map_map]
    have hcomp : ((fun e : Entry => e.rank) ∘ fun p : Nat × Record => mkEntry field p.1 p.2)
        = Prod.fst := by
      funext p
      rfl
    rw [hcomp, List.enumFrom_map_fst]
    simp

/-- C2: a record whose category field is absent or null is invalid, is
excluded from the filtered set (hence from that category's leaderboard,
every entry of which arises from a valid record), and is never ranked
with value 0; a record whose field holds numeric zero is valid and
normalizes to 0. -/
theorem c2_missing_vs_zero (goalies : List Record) (category field : String)
    (top_n : Nat) (g : Record)
    (h : Record.get? g field = Option.none ∨ Record.get? g field = some PyVal.none) :
    has_valid_field g field = false
    ∧ g ∉ validGoalies goalies field
    ∧ (∀ e ∈ buildCategory goalies category field top_n,
        ∃ i r, r ∈ validGoalies goalies field ∧ has_valid_field r field = true
          ∧ e = mkEntry field i r)
    ∧ (∀ g' : Record, Record.get? g' field = some (.num (.fin 0)) →
        has_valid_field g' field = true ∧ safe_get_value g' field = .fin 0) := by
  have hv : has_valid_field g field = false := by
    rcases h with h | h <;> simp [has_valid_field, h]
  refine ⟨hv, ?_, ?_, ?_⟩
  · intro hmem
    have := List.of_mem_filter hmem
    rw [hv] at this
    exact Bool.false_ne_true this
  · intro e he
    rcases List.mem_map.mp he with ⟨p, hp, rfl⟩
    have hsnd : p.2 ∈ (sortedGoalies goalies field (category ≠ "goalsagainstavg")).take top_n := by
      rw [List.enumFrom_eq_zip_range'] at hp
      exact (List.of_mem_zip hp).2
    have hmem : p.2 ∈ validGoalies goalies field :=
      (mem_sortedGoalies goalies field _ p.2).mp ((List.take_sublist _ _).mem hsnd)
    have hvalid : has_valid_field p.2 field = true := by
      have := hmem
      simp only [validGoalies, List.mem_filter] at this
      exact this.2
    exact ⟨p.1, p.2, hmem, hvalid, rfl⟩
  · intro g' hg'
    constructor
    · simp [has_valid_field, hg']
    · simp [safe_get_value, Record.getd, hg']

theorem c2_missing_vs_zero_witness :
    has_valid_field [("savePercentage", PyVal.none)] "savePercentage" = false
    ∧ [("savePercentage", PyVal.none)]
        ∉ validGoalies [[("savePercentage", PyVal.none)]] "savePercentage"
    ∧ (∀ e ∈ buildCategory [[("savePercentage", PyVal.none)]] "savepercentage"
          "savePercentage" 5,
        ∃ i r, r ∈ validGoalies [[("savePercentage", PyVal.none)]] "savePercentage"
          ∧ has_valid_field r "savePercentage" = true
          ∧ e = mkEntry "savePercentage" i r)
    ∧ (∀ g' : Record, Record.get? g' "savePercentage" = some (.num (.fin 0)) →
        has_valid_field g' "savePercentage" = true
          ∧ safe_get_value g' "savePercentage" = .fin 0) :=
  c2_missing_vs_zero [[("savePercentage", PyVal.none)]] "savepercentage" "savePercentage" 5
    [("savePercentage", PyVal.none)] (Or.inr rfl)

theorem pyLt_irrefl (x : PyFloat) : pyLt x x = false := by
  rcases x with _ | nx | qx
  · rfl
  · cases nx <;> rfl
  · simp [pyLt]

/-- C4 fails as stated: a record whose category field holds the string
"nan" is valid (Python `float("nan")` succeeds) and its NaN key compares
false on every comparison, so the sort leaves it in place and the
produced value sequence is not monotonic — for `savepercentage`
(descending) the built leaderboard's values are 1.0, nan, 2.0, where a
later finite value exceeds an earlier one. -/
theorem c4_counterexample :
    has_valid_field [("savePercentage", PyVal.str "nan")] "savePercentage" = true
    ∧ (buildCategory
        [[("savePercentage", PyVal.num (.fin 1))],
         [("savePercentage", PyVal.str "nan")],
         [("savePercentage", PyVal.num (.fin 2))]]
        "savepercentage" "savePercentage" 5).map (fun e => e.value)
      = [.fin 1, .nan, .fin 2]
    ∧ ¬ List.Pairwise (fun e1 e2 : Entry => pyLe e2.value e1.value = true)
        (buildCategory
          [[("savePercentage", PyVal.num (.fin 1))],
           [("savePercentage", PyVal.str "nan")],
           [("savePercentage", PyVal.num (.fin 2))]]
          "savepercentage" "savePercentage" 5) := by
  refine ⟨by decide, by decide, by decide⟩

/-- C4 amended: provided no valid record's normalized value for the
category is NaN, the produced leaderboard is the stable sort of the valid
records by normalized value — ascending for `goalsagainstavg`, descending
for every other category — so entry values are monotone in the category's
direction; unconditionally the sorted records are a permutation of the
valid ones, and records with equal values keep their original relative
order (no secondary key). A record whose field normalizes to NaN is
accepted as valid and can make the produced order non-monotonic. -/
theorem c4_stable_sort (goalies : List Record) (category field : String) (top_n : Nat)
    (hnan : ∀ r ∈ validGoalies goalies field, safe_get_value r field ≠ .nan) :
    List.Pairwise
      (fun e1 e2 : Entry =>
        if category = "goalsagainstavg" then pyLe e1.value e2.value = true
        else pyLe e2.value e1.value = true)
      (buildCategory goalies category field top_n)
    ∧ (sortedGoalies goalies field (category ≠ "goalsagainstavg")).Perm
        (validGoalies goalies field)
    ∧ ∀ a b : Record, [a, b].Sublist (validGoalies goalies field) →
        safe_get_value a field = safe_get_value b field →
        [a, b].Sublist (sortedGoalies goalies field (category ≠ "goalsagainstavg")) := by
  refine ⟨?_, pySorted_perm _ _ _, ?_⟩
  · have hsorted := pySorted_pairwise (keyLt field) (category ≠ "goalsagainstavg")
      (validGoalies goalies field)
      (fun a _ b _ h => pyLt_asymm _ _ h)
      (fun a ha b hb c hc h1 h2 =>
        pyLt_co_trans _ _ _ (hnan a ha) (hnan b hb) (hnan c hc) h1 h2)
    have htake := hsorted.sublist
      (List.take_sublist top_n (sortedGoalies goalies field (category ≠ "goalsagainstavg")))
    have henum :
        (((sortedGoalies goalies field (category ≠ "goalsagainstavg")).take top_n).enumFrom
          1).Pairwise
          (fun p q : Nat × Record =>
            (if (category ≠ "goalsagainstavg" : Bool) then keyLt field p.2 q.2
              else keyLt field q.2 p.2) = false) := by
      have h1 : ((((sortedGoalies goalies field (category ≠ "goalsagainstavg")).take
            top_n).enumFrom 1).map Prod.snd).Pairwise
          (fun a b : Record =>
            (if (category ≠ "goalsagainstavg" : Bool) then keyLt field a b
              else keyLt field b a) = false) := by
        rw [List.enumFrom_map_snd]
        exact htake
      exact List.pairwise_map.mp h1
    unfold buildCategory
    rw [List.pairwise_map]
    refine henum.imp ?_
    intro p q hpq
    by_cases hc : category = "goalsagainstavg" <;>
      simp [keyLt, pyLe, hc, mkEntry] at hpq ⊢ <;> exact hpq
  · intro a b hsub heq
    refine pySorted_pair_stable (keyLt field) _ _ a b hsub ?_ ?_
    · show pyLt (safe_get_value b field) (safe_get_value a field) = false
      rw [heq]
      exact pyLt_irrefl _
    · show pyLt (safe_get_value a field) (safe_get_value b field) = false
      rw [heq]
      exact pyLt_irrefl _

theorem c4_stable_sort_witness :
    [([("savePercentage", PyVal.num (.fin 2))] : Record),
     [("savePercentage", PyVal.num (.fin 2)), ("extra", PyVal.num (.fin 1))]].Sublist
      (sortedGoalies
        [[("savePercentage", PyVal.num (.fin 2))],
         [("savePercentage", PyVal.num (.fin 2)), ("extra", PyVal.num (.fin 1))]]
        "savePercentage" ("savepercentage" ≠ "goalsagainstavg")) :=
  (c4_stable_sort
      [[("savePercentage", PyVal.num (.fin 2))],
       [("savePercentage", PyVal.num (.fin 2)), ("extra", PyVal.num (.fin 1))]]
      "savepercentage" "savePercentage" 5 (by decide)).2.2
    [("savePercentage", PyVal.num (.fin 2))]
    [("savePercentage", PyVal.num (.fin 2)), ("extra", PyVal.num (.fin 1))]
    (by
      have h : validGoalies
          [[("savePercentage", PyVal.num (.fin 2))],
           [("savePercentage", PyVal.num (.fin 2)), ("extra", PyVal.num (.fin 1))]]
          "savePercentage"
          = [[("savePercentage", PyVal.num (.fin 2))],
             [("savePercentage", PyVal.num (.fin 2)), ("extra", PyVal.num (.fin 1))]] := rfl
      rw [h])
    rfl

theorem digit_not_ws (c : Char) (h : c.isDigit = true) : c.isWhitespace = false := by
  by_contra hw
  rw [Bool.not_eq_false] at hw
  have hcases : c = ' ' ∨ c = '\t' ∨ c = '\x0d' ∨ c = '\n' := by
    simpa [Char.isWhitespace, Bool.or_eq_true, or_assoc] using hw
  rcases hcases with rfl | rfl | rfl | rfl <;> exact absurd h (by decide)

theorem dropWhile_all_false (p : Char → Bool) (l : List Char)
    (h : ∀ c ∈ l, p c = false) : l.dropWhile p = l := by
  cases l with
  | nil => rfl
  | cons x xs =>
    rw [List.dropWhile_cons, h x (List.mem_cons_self x xs)]
    simp

theorem pyStrip_all (l : List Char) (h : ∀ c ∈ l, c.isWhitespace = false) :
    pyStrip ⟨l⟩ = ⟨l⟩ := by
  have h1 : l.dropWhile Char.isWhitespace = l := dropWhile_all_false _ _ h
  have h2 : l.reverse.dropWhile Char.isWhitespace = l.reverse :=
    dropWhile_all_false _ _ (fun c hc => h c (List.mem_reverse.mp hc))
  simp [pyStrip, String.toList, h1, h2]

theorem takeWhile_exact (p : Char → Bool) (a rest : List Char)
    (ha : ∀ c ∈ a, p c = true) (hr : ∀ x, rest.head? = some x → p x = false) :
    (a ++ rest).takeWhile p = a := by
  rw [List.takeWhile_append_of_pos ha]
  cases rest with
  | nil => simp
  | cons x xs =>
    rw [List.takeWhile_cons, hr x rfl]
    simp

theorem dropWhile_exact (p : Char → Bool) (a rest : List Char)
    (ha : ∀ c ∈ a, p c = true) (hr : ∀ x, rest.head? = some x → p x = false) :
    (a ++ rest).dropWhile p = rest := by
  induction a with
  | nil =>
    cases rest with
    | nil => rfl
    | cons x xs =>
      rw [List.nil_append, List.dropWhile_cons, hr x rfl]
      simp
  | cons y ys ih =>
    rw [List.cons_append, List.dropWhile_cons, ha y (List.mem_cons_self y ys)]
    simp only [if_true]
    exact ih (fun c hc => ha c (List.mem_cons_of_mem y hc))

theorem span_exact (p : Char → Bool) (a rest : List Char)
    (ha : ∀ c ∈ a, p c = true) (hr : ∀ x, rest.head? = some x → p x = false) :
    (a ++ rest).span p = (a, rest) := by
  rw [List.span_eq_take_drop, takeWhile_exact p a rest ha hr, dropWhile_exact p a rest ha hr]

theorem digitsU_none (l : List Char) (h : ∀ x, l.head? = some x → x.isDigit = false) :
    digitsU l = ([], l) := by
  match l with
  | [] => rfl
  | [c] =>
    have hc := h c rfl
    simp [digitsU.eq_def, hc]
  | c :: c2 :: cs =>
    have hc := h c rfl
    simp [digitsU.eq_def, hc]

theorem digitsU_exact (a rest : List Char) (ha : ∀ c ∈ a, c.isDigit)
    (hr : ∀ x, rest.head? = some x → x.isDigit = false ∧ x ≠ '_') :
    digitsU (a ++ rest) = (a, rest) := by
  induction a with
  | nil => exact digitsU_none rest (fun x hx => (hr x hx).1)
  | cons d a' ih =>
    have hd : d.isDigit := ha d (List.mem_cons_self _ _)
    have ha' : ∀ c ∈ a', c.isDigit := fun c hc => ha c (List.mem_cons_of_mem d hc)
    cases a' with
    | nil =>
      cases rest with
      | nil => simp [digitsU.eq_def, hd]
      | cons r rs =>
        obtain ⟨hr1, hr2⟩ := hr r rfl
        have h0 : digitsU (r :: rs) = ([], r :: rs) :=
          digitsU_none _ (fun x hx => by
            rw [List.head?_cons, Option.some.injEq] at hx
            subst hx
            exact hr1)
        rw [digitsU.eq_def]
        simp [hd, hr2, h0]
    | cons d2 a'' =>
      have hd2 : d2.isDigit := ha' d2 (List.mem_cons_self _ _)
      have hd2ne : d2 ≠ '_' := fun hc => absurd (hc ▸ hd2) (by decide)
      have h0 : digitsU ((d2 :: a'') ++ rest) = (d2 :: a'', rest) := ih ha'
      rw [List.cons_append] at h0
      simp only [List.cons_append]
      rw [digitsU.eq_def]
      simp [hd, hd2ne, h0]

theorem digits_not_special (c : Char) (cs : List Char) (h : c.isDigit = true) :
    isInfStr (c :: cs) = false ∧ isNanStr (c :: cs) = false := by
  have h1 : c ≠ 'i' := fun hc => absurd (hc ▸ h) (by decide)
  have h2 : c ≠ 'I' := fun hc => absurd (hc ▸ h) (by decide)
  have h3 : c ≠ 'n' := fun hc => absurd (hc ▸ h) (by decide)
  have h4 : c ≠ 'N' := fun hc => absurd (hc ▸ h) (by decide)
  constructor <;> simp [isInfStr, isNanStr, ciEq, h1, h2, h3, h4]

theorem pyFloat_digits (a : List Char) (ha : a ≠ []) (hda : ∀ c ∈ a, c.isDigit) :
    pyFloatOfString ⟨a⟩ = some (.fin (mkRat (digitsToNat a) 1)) := by
  have hstrip : pyStrip ⟨a⟩ = ⟨a⟩ :=
    pyStrip_all _ (fun c hc => digit_not_ws c (hda c hc))
  obtain ⟨a0, at0, rfl⟩ := List.exists_cons_of_ne_nil ha
  have ha0 : a0.isDigit := hda a0 (List.mem_cons_self _ _)
  have hsign : readSign (a0 :: at0) = (false, a0 :: at0) := by
    have h1 : a0 ≠ '+' := fun hc => absurd (hc ▸ ha0) (by decide)
    have h2 : a0 ≠ '-' := fun hc => absurd (hc ▸ ha0) (by decide)
    simp [readSign, h1, h2]
  have hspec := digits_not_special a0 at0 ha0
  have hpe : ∀ c ∈ a0 :: at0, (fun c => !(c = 'e' || c = 'E')) c = true := by
    intro c hc
    have hd := hda c hc
    have he : c ≠ 'e' := fun hc2 => absurd (hc2 ▸ hd) (by decide)
    have hE : c ≠ 'E' := fun hc2 => absurd (hc2 ▸ hd) (by decide)
    simp [he, hE]
  have htakeE : (a0 :: at0).takeWhile (fun c => !(c = 'e' || c = 'E')) = a0 :: at0 := by
    have h := takeWhile_exact (fun c => !(c = 'e' || c = 'E')) (a0 :: at0) [] hpe
      (fun x hx => by simp at hx)
    rwa [List.append_nil] at h
  have hdropE : (a0 :: at0).dropWhile (fun c => !(c = 'e' || c = 'E')) = [] := by
    have h := dropWhile_exact (fun c => !(c = 'e' || c = 'E')) (a0 :: at0) [] hpe
      (fun x hx => by simp at hx)
    rwa [List.append_nil] at h
  have hbreak : breakAtExp (a0 :: at0) = (a0 :: at0, Option.none) := by
    simp only [breakAtExp, List.span_eq_take_drop, htakeE, hdropE]
  have hmant : parseMantissa (a0 :: at0) = some (digitsToNat (a0 :: at0), 0) := by
    have h0 : digitsU ((a0 :: at0) ++ []) = (a0 :: at0, []) :=
      digitsU_exact (a0 :: at0) [] hda (fun x hx => by simp at hx)
    rw [List.append_nil] at h0
    simp [parseMantissa, h0]
  simp only [pyFloatOfString, hstrip, String.toList, hsign, hspec.1, hspec.2, hbreak, hmant,
    parseExpOpt, Bool.false_eq_true, if_false]
  norm_num

theorem pyFloat_digits_point (a b : List Char) (ha : a ≠ []) (hb : b ≠ [])
    (hda : ∀ c ∈ a, c.isDigit) (hdb : ∀ c ∈ b, c.isDigit) :
    pyFloatOfString ⟨a ++ '.' :: b⟩
      = some (.fin (mkRat (digitsToNat (a ++ b)) (10 ^ b.length))) := by
  have hall : ∀ c ∈ a ++ '.' :: b, c.isDigit ∨ c = '.' := by
    intro c hc
    rcases List.mem_append.mp hc with h | h
    · exact Or.inl (hda c h)
    · rcases List.mem_cons.mp h with rfl | h
      · exact Or.inr rfl
      · exact Or.inl (hdb c h)
  have hstrip : pyStrip ⟨a ++ '.' :: b⟩ = ⟨a ++ '.' :: b⟩ := by
    refine pyStrip_all _ ?_
    intro c hc
    rcases hall c hc with h | rfl
    · exact digit_not_ws c h
    · decide
  obtain ⟨a0, at0, rfl⟩ := List.exists_cons_of_ne_nil ha
  have ha0 : a0.isDigit := hda a0 (List.mem_cons_self _ _)
  have hsign : readSign ((a0 :: at0) ++ '.' :: b) = (false, (a0 :: at0) ++ '.' :: b) := by
    have h1 : a0 ≠ '+' := fun hc2 => absurd (hc2 ▸ ha0) (by decide)
    have h2 : a0 ≠ '-' := fun hc2 => absurd (hc2 ▸ ha0) (by decide)
    simp [readSign, h1, h2]
  have hspec := digits_not_special a0 (at0 ++ '.' :: b) ha0
  have hpe : ∀ c ∈ (a0 :: at0) ++ '.' :: b, (fun c => !(c = 'e' || c = 'E')) c = true := by
    intro c hc
    rcases hall c hc with h | rfl
    · have he : c ≠ 'e' := fun hc2 => absurd (hc2 ▸ h) (by decide)
      have hE : c ≠ 'E' := fun hc2 => absurd (hc2 ▸ h) (by decide)
      simp [he, hE]
    · decide
  have htakeE : ((a0 :: at0) ++ '.' :: b).takeWhile (fun c => !(c = 'e' || c = 'E'))
      = (a0 :: at0) ++ '.' :: b := by
    have h := takeWhile_exact (fun c => !(c = 'e' || c = 'E')) ((a0 :: at0) ++ '.' :: b) [] hpe
      (fun x hx => by simp at hx)
    rwa [List.append_nil] at h
  have hdropE : ((a0 :: at0) ++ '.' :: b).dropWhile (fun c => !(c = 'e' || c = 'E')) = [] := by
    have h := dropWhile_exact (fun c => !(c = 'e' || c = 'E')) ((a0 :: at0) ++ '.' :: b) [] hpe
      (fun x hx => by simp at hx)
    rwa [List.append_nil] at h
  have hbreak : breakAtExp ((a0 :: at0) ++ '.' :: b)
      = ((a0 :: at0) ++ '.' :: b, Option.none) := by
    simp only [breakAtExp, List.span_eq_take_drop, htakeE, hdropE]
  have hu1 : digitsU ((a0 :: at0) ++ '.' :: b) = (a0 :: at0, '.' :: b) :=
    digitsU_exact (a0 :: at0) ('.' :: b) hda
      (fun x hx => by
        rw [List.head?_cons, Option.some.injEq] at hx
        subst hx
        exact ⟨by decide, by decide⟩)
  have hu2 : digitsU b = (b, []) := by
    have h := digitsU_exact b [] hdb (fun x hx => by simp at hx)
    rwa [List.append_nil] at h
  rw [List.cons_append] at hu1
  have hmant : parseMantissa ((a0 :: at0) ++ '.' :: b)
      = some (digitsToNat ((a0 :: at0) ++ b), b.length) := by
    simp [parseMantissa, hu1, hu2, hb]
  simp only [List.cons_append] at hstrip hsign hbreak hmant
  simp only [pyFloatOfString, List.cons_append, hstrip, String.toList, hsign, hspec.1,
    hspec.2, hbreak, hmant, parseExpOpt, Bool.false_eq_true, if_false]
  norm_num

theorem norm_chars_digits (l : List Char) (h : ∀ c ∈ l, c.isDigit) :
    (l.map (fun c => if c = ',' then '.' else c)).filter (fun c => c ≠ '%') = l := by
  induction l with
  | nil => rfl
  | cons x xs ih =>
    have hx := h x (List.mem_cons_self _ _)
    have h1 : x ≠ ',' := fun hc => absurd (hc ▸ hx) (by decide)
    have h2 : x ≠ '%' := fun hc => absurd (hc ▸ hx) (by decide)
    have ih2 := ih (fun c hc => h c (List.mem_cons_of_mem _ hc))
    simp [h1, h2]
    simpa using ih2

theorem pyNormalize_numeral (a b : List Char) (pct : Bool)
    (hda : ∀ c ∈ a, c.isDigit) (hdb : ∀ c ∈ b, c.isDigit) :
    pyNormalizeStr (numeralStr a b pct) = ⟨a ++ (if b.isEmpty then [] else '.' :: b)⟩ := by
  refine congrArg String.mk ?_
  show (((a ++ (if b.isEmpty then [] else ',' :: b) ++ (if pct then ['%'] else [])).map
      (fun c => if c = ',' then '.' else c)).filter (fun c => c ≠ '%'))
    = a ++ (if b.isEmpty then [] else '.' :: b)
  rw [List.map_append, List.map_append, List.filter_append, List.filter_append,
    norm_chars_digits a hda]
  have hpct : (((if pct then ['%'] else []).map
      (fun c => if c = ',' then '.' else c)).filter (fun c => c ≠ '%')) = [] := by
    cases pct <;> decide
  rw [hpct, List.append_nil]
  by_cases hb : b.isEmpty
  · rw [if_pos hb, if_pos hb]
    rfl
  · rw [if_neg hb, if_neg hb]
    simp +decide only [List.map_cons, List.filter_cons, if_true]
    refine congrArg (HAppend.hAppend a) ?_
    refine congrArg (List.cons '.') ?_
    simpa using norm_chars_digits b hdb

/-- C3 fails as stated: the source normalization removes every percent
sign, not only a trailing one, so `"9%2"` converts to `92.0` where the
claimed procedure (strip one trailing percent marker, replace the comma
decimal separator, parse) reports a parse failure. -/
theorem c3_counterexample :
    strNormalize "9%2" = some (.fin 92)
    ∧ specNormalize "9%2" = Option.none
    ∧ ¬ strNormalize "9%2" = specNormalize "9%2" :=
  ⟨by decide, by decide, by decide⟩

/-- C3 amended: normalization replaces every comma with a period and
removes every percent sign (wherever they occur, not only trailing), then
parses the result as a number, reporting not-ok on parse failure; in
particular every numeric string made of digits with an optional comma
decimal part and an optional trailing percent sign yields the equivalent
value, e.g. "92,5%" yields 92.5. -/
theorem c3_amended (a b : List Char) (pct : Bool) (ha : a ≠ [])
    (hda : ∀ c ∈ a, c.isDigit) (hdb : ∀ c ∈ b, c.isDigit) :
    strNormalize (numeralStr a b pct)
      = some (.fin (mkRat (digitsToNat (a ++ b)) (10 ^ b.length))) := by
  rw [strNormalize, pyNormalize_numeral a b pct hda hdb]
  by_cases hb : b.isEmpty
  · have hbe : b = [] := List.isEmpty_iff.mp hb
    subst hbe
    have h1 : (a ++ if ([] : List Char).isEmpty = true then ([] : List Char) else ['.'])
        = a := by simp
    rw [h1, pyFloat_digits a ha hda, List.append_nil]
    norm_num
  · have hbne : b ≠ [] := fun h => hb (by simp [h])
    rw [if_neg hb]
    exact pyFloat_digits_point a b ha hbne hda hdb

theorem c3_amended_witness :
    numeralStr ['9', '2'] ['5'] true = "92,5%"
    ∧ strNormalize (numeralStr ['9', '2'] ['5'] true)
      = some (.fin (mkRat (digitsToNat (['9', '2'] ++ ['5']))
          (10 ^ (['5'] : List Char).length)))
    ∧ mkRat (digitsToNat ((['9', '2'] : List Char) ++ ['5']))
        (10 ^ (['5'] : List Char).length) = mkRat 925 10 :=
  ⟨by decide, c3_amended ['9', '2'] ['5'] true (by decide) (by decide) (by decide),
   by decide⟩
